import Mathlib

/-!
Shallow embedding of the gadalang node registry, resolver and dispatcher
(files `src/gadalang/main.py` and `src/gadalang/nodes/__init__.py`).

Plugin discovery itself (the `pkgutil` / entry-point iteration inside
`load_plugins`) is external I/O: a discovered plugin is modelled as the pair
of its normalized group name and the list of node names its provider
reports, and the discovered sequence is a parameter of the registry build.
JSON decoding of the child's output (`pygada_runtime.read_json`) is likewise
an external collaborator and is passed in as an abstract parse function.
-/

/-- A discovered plugin: its normalized group name together with the node
names its provider reports (the result of `plugin.nodes()` in the source). -/
abbrev Plugin := String × List String

/-- One pass of the inner loop of `load` in `src/gadalang/nodes/__init__.py`
(`for _ in plugin.nodes(): nodes[_] = name`): insert every node name of one
plugin into the mapping with that plugin's group as owner, overwriting any
earlier owner. -/
def insertNodes (acc : String → Option String) (group : String)
    (ns : List String) : String → Option String :=
  ns.foldl (fun acc2 n => fun k => if k = n then some group else acc2 k) acc

/-- The outer loop of `load`, started from an arbitrary accumulator. -/
def loadFrom (acc : String → Option String) (plugins : List Plugin) :
    String → Option String :=
  plugins.foldl (fun a p => insertNodes a p.1 p.2) acc

/-- Function `load` of `src/gadalang/nodes/__init__.py`: build the mapping
from node name to owner group by iterating the discovered plugins in order;
a later plugin silently overwrites an earlier owner of the same node name. -/
def load (plugins : List Plugin) : String → Option String :=
  loadFrom (fun _ => none) plugins

/-- Function `sanitize_node_name` of `src/gadalang/main.py`: a name
containing the separator character is returned unchanged; otherwise the
registry built by `load` is consulted, an unknown name is returned
unchanged, and a name with owner `owner` becomes `gadalang_<owner>.<name>`. -/
def sanitize_node_name (plugins : List Plugin) (node : String) : String :=
  if ('.' : Char) ∈ node.data then node
  else
    match load plugins node with
    | none => node
    | some owner => "gadalang_" ++ owner ++ "." ++ node

/-- Errors of the dispatcher: a non-zero child exit carrying the captured
diagnostic text, or a zero exit whose output stream is not valid JSON. -/
inductive RunError where
  | executionFailure (msg : String)
  | outputDecodeFailure
deriving DecidableEq

/-- Observable outcome of one child process run: its exit status, the full
contents of its output stream, and the full text of its diagnostic stream. -/
structure ProcResult where
  returncode : Int
  stdout : String
  stderr : String

/-- Completion logic of `run` in `src/gadalang/main.py` (lines 86 to 89): a
non-zero exit raises an error carrying exactly the full stderr text and the
stdout contents are never read; a zero exit parses the full stdout contents
as JSON and returns the decoded value, a parse failure being an error
itself.  The JSON decoder is the abstract `parse` parameter. -/
def runResult {α : Type} (parse : String → Option α) (p : ProcResult) :
    Except RunError α :=
  if p.returncode ≠ 0 then .error (.executionFailure p.stderr)
  else
    match parse p.stdout with
    | none => .error .outputDecodeFailure
    | some v => .ok v

/-- The list comprehension of `load_plugins` in
`src/gadalang/nodes/__init__.py`: every discovered plugin's loader is called
in discovery order and the first loader failure propagates out of the
registry build.  A loader outcome is either the plugin's node-name list or
the text of its import error. -/
def load_pluginsE :
    List (String × Except String (List String)) →
    Except String (List Plugin)
  | [] => .ok []
  | p :: rest =>
    match p.2 with
    | .error e => .error e
    | .ok ns =>
      match load_pluginsE rest with
      | .error e => .error e
      | .ok rs => .ok ((p.1, ns) :: rs)

/-- Registry build with fallible plugin loaders: `load` over the plugins
produced by `load_pluginsE`, propagating any loader failure. -/
def loadE (loaders : List (String × Except String (List String))) :
    Except String (String → Option String) :=
  match load_pluginsE loaders with
  | .error e => .error e
  | .ok ps => .ok (load ps)

/-- The resolver with fallible plugin loaders: `sanitize_node_name` as
written in `src/gadalang/main.py`, where the `nodes.load()` call on the
unqualified path may itself fail (a broken plugin raises during import) and
that failure propagates out of resolution. -/
def sanitize_node_nameE
    (loaders : List (String × Except String (List String)))
    (node : String) : Except String String :=
  if ('.' : Char) ∈ node.data then .ok node
  else
    match loadE loaders with
    | .error e => .error e
    | .ok known =>
      match known node with
      | none => .ok node
      | some owner => .ok ("gadalang_" ++ owner ++ "." ++ node)

/-- Number of `nodes.load()` invocations a single `sanitize_node_name` call
performs, read off the source: a name containing the separator returns
before the call (line 37), and otherwise `nodes.load()` is called exactly
once (line 41).  The source caches nothing. -/
def loadCallsDuringResolve (node : String) : Nat :=
  if ('.' : Char) ∈ node.data then 0 else 1

/-- Total number of `nodes.load()` invocations (each a full plugin
discovery) performed by resolving a sequence of names one after another. -/
def loadCallsDuringResolveSeq (names : List String) : Nat :=
  (names.map loadCallsDuringResolve).sum

/-- Whether a name is unqualified (contains no separator character). -/
def unqualifiedB (n : String) : Bool :=
  decide (('.' : Char) ∉ n.data)

theorem data_append (s t : String) : (s ++ t).data = s.data ++ t.data := by
  cases s
  cases t
  rfl

theorem insertNodes_apply (acc : String → Option String) (group : String)
    (ns : List String) (x : String) :
    insertNodes acc group ns x = if x ∈ ns then some group else acc x := by
  induction ns generalizing acc with
  | nil => simp [insertNodes]
  | cons n rest ih =>
    simp only [insertNodes, List.foldl_cons] at *
    rw [ih]
    by_cases hx : x ∈ rest
    · simp [hx]
    · simp [hx, List.mem_cons]

theorem loadFrom_not_declared (acc : String → Option String)
    (plugins : List Plugin) (x : String)
    (h : ∀ p ∈ plugins, x ∉ p.2) :
    loadFrom acc plugins x = acc x := by
  induction plugins generalizing acc with
  | nil => rfl
  | cons p rest ih =>
    simp only [loadFrom, List.foldl_cons] at *
    rw [ih _ (fun q hq => h q (List.mem_cons_of_mem p hq))]
    rw [insertNodes_apply]
    simp [h p (List.mem_cons_self p rest)]

theorem loadFrom_append (acc : String → Option String)
    (ps qs : List Plugin) :
    loadFrom acc (ps ++ qs) = loadFrom (loadFrom acc ps) qs := by
  simp [loadFrom, List.foldl_append]

theorem mem_data_append_left {c : Char} (s t : String) (h : c ∈ s.data) :
    c ∈ (s ++ t).data := by
  rw [data_append]
  exact List.mem_append_left _ h

theorem mem_data_append_right {c : Char} (s t : String) (h : c ∈ t.data) :
    c ∈ (s ++ t).data := by
  rw [data_append]
  exact List.mem_append_right _ h

theorem load_pluginsE_error
    (loaders : List (String × Except String (List String))) (e : String)
    (h : load_pluginsE loaders = .error e) :
    ∃ p ∈ loaders, p.2 = Except.error e := by
  induction loaders with
  | nil => simp [load_pluginsE] at h
  | cons p rest ih =>
    simp only [load_pluginsE] at h
    cases hp : p.2 with
    | error e2 =>
      rw [hp] at h
      cases h
      exact ⟨p, List.mem_cons_self p rest, hp⟩
    | ok ns =>
      rw [hp] at h
      cases hr : load_pluginsE rest with
      | error e2 =>
        rw [hr] at h
        cases h
        obtain ⟨q, hq, hq2⟩ := ih hr
        exact ⟨q, List.mem_cons_of_mem p hq, hq2⟩
      | ok rs =>
        rw [hr] at h
        cases h

theorem loadE_error
    (loaders : List (String × Except String (List String))) (e : String)
    (h : loadE loaders = .error e) :
    load_pluginsE loaders = .error e := by
  unfold loadE at h
  split at h
  next heq =>
    injection h with h2
    subst h2
    exact heq
  next => exact Except.noConfusion h

/-- C1: for every node name without a separator that the registry maps to
owner group `g`, resolution returns the canonical identifier
`gadalang_<g>.<name>`. -/
theorem sanitize_resolves_registry_name (plugins : List Plugin)
    (node g : String) (hsep : ('.' : Char) ∉ node.data)
    (hreg : load plugins node = some g) :
    sanitize_node_name plugins node = "gadalang_" ++ g ++ "." ++ node := by
  simp [sanitize_node_name, hsep, hreg]

/-- C1 witness: with a registry mapping `json` to `lang`, resolving `json`
yields `gadalang_lang.json`. -/
theorem sanitize_resolves_registry_name_witness :
    sanitize_node_name [("lang", ["json", "yaml"])] "json" =
      "gadalang_lang.json" :=
  (sanitize_resolves_registry_name [("lang", ["json", "yaml"])] "json" "lang"
    (by decide) (by decide)).trans (by decide)

/-- C7: any node reference containing the separator character is returned
unchanged, whatever the registry contents. -/
theorem sanitize_qualified_passthrough (plugins : List Plugin) (s : String)
    (h : ('.' : Char) ∈ s.data) :
    sanitize_node_name plugins s = s := by
  simp [sanitize_node_name, h]

/-- C7 witness: a qualified reference passes through even when the registry
happens to contain it. -/
theorem sanitize_qualified_passthrough_witness :
    sanitize_node_name [("lang", ["somepackage.somenode"])]
      "somepackage.somenode" = "somepackage.somenode" :=
  sanitize_qualified_passthrough [("lang", ["somepackage.somenode"])]
    "somepackage.somenode" (by decide)

/-- C8: an unqualified node name absent from the registry is returned
unchanged. -/
theorem sanitize_unknown_passthrough (plugins : List Plugin) (n : String)
    (hsep : ('.' : Char) ∉ n.data) (hreg : load plugins n = none) :
    sanitize_node_name plugins n = n := by
  simp [sanitize_node_name, hsep, hreg]

/-- C8 witness: the unknown name `invalid` resolves to itself. -/
theorem sanitize_unknown_passthrough_witness :
    sanitize_node_name [("lang", ["json", "yaml"])] "invalid" = "invalid" :=
  sanitize_unknown_passthrough [("lang", ["json", "yaml"])] "invalid"
    (by decide) (by decide)

/-- C10: resolution is idempotent for every input string and every fixed
registry state — a registry-resolved name contains the separator, so a
second resolution passes it through, and the other cases return the input
unchanged. -/
theorem sanitize_idempotent (plugins : List Plugin) (s : String) :
    sanitize_node_name plugins (sanitize_node_name plugins s) =
      sanitize_node_name plugins s := by
  by_cases h : ('.' : Char) ∈ s.data
  · simp [sanitize_node_name, h]
  · cases hreg : load plugins s with
    | none => simp [sanitize_node_name, h, hreg]
    | some g =>
      have hdot : ('.' : Char) ∈ ".".data := by decide
      have hmem : ('.' : Char) ∈ ("gadalang_" ++ g ++ "." ++ s).data :=
        mem_data_append_left _ s (mem_data_append_right ("gadalang_" ++ g) "." hdot)
      simp [sanitize_node_name, h, hreg, hmem]

/-- C2: a non-zero child exit makes `run` fail with exactly the full text
captured from the child's stderr stream as the message, and the stdout
contents are discarded — the outcome does not depend on them. -/
theorem run_nonzero_exit_fails_with_stderr {α : Type}
    (parse : String → Option α) (p : ProcResult) (h : p.returncode ≠ 0) :
    runResult parse p = .error (.executionFailure p.stderr) ∧
      ∀ out : String,
        runResult parse { p with stdout := out } =
          .error (.executionFailure p.stderr) := by
  constructor
  · simp [runResult, h]
  · intro out
    simp [runResult, h]

/-- C2 witness: a child writing `boom` to stderr and exiting 1 fails with
message exactly `boom`, whatever it wrote to stdout. -/
theorem run_nonzero_exit_fails_with_stderr_witness :
    runResult (fun _ => (none : Option Nat)) ⟨1, "ignored", "boom"⟩ =
      .error (.executionFailure "boom") :=
  (run_nonzero_exit_fails_with_stderr (fun _ => (none : Option Nat))
    ⟨1, "ignored", "boom"⟩ (by decide)).1

/-- C3: a zero child exit makes `run` parse the full stdout contents as
JSON and return the decoded value; non-JSON stdout yields a decode failure
rather than a silent empty result. -/
theorem run_zero_exit_parses_stdout {α : Type}
    (parse : String → Option α) (p : ProcResult) (h : p.returncode = 0) :
    (∀ v : α, parse p.stdout = some v → runResult parse p = .ok v) ∧
      (parse p.stdout = none →
        runResult parse p = .error .outputDecodeFailure) := by
  constructor
  · intro v hv
    simp [runResult, h, hv]
  · intro hv
    simp [runResult, h, hv]

/-- C3 witness: a node exiting 0 with non-JSON stdout fails with a decode
error. -/
theorem run_zero_exit_parses_stdout_witness :
    runResult (fun s => if s = "7" then some 7 else none)
      ⟨0, "not json", ""⟩ = .error RunError.outputDecodeFailure :=
  (run_zero_exit_parses_stdout (fun s => if s = "7" then some 7 else none)
    ⟨0, "not json", ""⟩ rfl).2 (by decide)

/-- C4 counterexample: resolution can raise — with a plugin whose loader
fails, resolving the unqualified name `x` propagates the loader's error out
of `sanitize_node_name` instead of returning a string. -/
theorem resolution_can_propagate_discovery_error :
    sanitize_node_nameE [("broken", Except.error "ImportError")] "x" =
      Except.error "ImportError" := rfl

/-- C4 amended: resolution never fails for qualified names and never
surfaces existence or launchability errors; the only error it can propagate
is a plugin load failure during the registry build triggered by an
unqualified name — every resolution error is the error of some discovered
plugin's loader. -/
theorem resolution_error_only_discovery
    (loaders : List (String × Except String (List String)))
    (node : String) (e : String)
    (h : sanitize_node_nameE loaders node = .error e) :
    ('.' : Char) ∉ node.data ∧ ∃ p ∈ loaders, p.2 = Except.error e := by
  by_cases hsep : ('.' : Char) ∈ node.data
  · simp [sanitize_node_nameE, hsep] at h
  · refine ⟨hsep, ?_⟩
    unfold sanitize_node_nameE at h
    rw [if_neg hsep] at h
    split at h
    next e2 heq =>
      injection h with h2
      subst h2
      exact load_pluginsE_error loaders _ (loadE_error loaders _ heq)
    next known heq =>
      split at h <;> exact Except.noConfusion h

/-- C4 witness: the amended characterization at a concrete failing loader. -/
theorem resolution_error_only_discovery_witness :
    ('.' : Char) ∉ "x".data ∧
      ∃ p ∈ [("broken", (Except.error "boom" : Except String (List String)))],
        p.2 = Except.error "boom" :=
  resolution_error_only_discovery
    [("broken", Except.error "boom")] "x" "boom" rfl

/-- C5 counterexample: resolving the two unqualified names `a` and `b` in
one process performs two `nodes.load()` invocations — two full plugin
discoveries — not at most one as the claim's caching would require. -/
theorem resolve_seq_repeats_load :
    loadCallsDuringResolveSeq ["a", "b"] = 2 ∧
      ¬ loadCallsDuringResolveSeq ["a", "b"] ≤ 1 := by
  decide

/-- C5 amended: the registry is not cached — every resolution of an
unqualified name invokes `nodes.load()` anew, so the number of full plugin
discoveries over a sequence of resolutions equals the number of unqualified
names in it.  (The mapping each invocation builds is a deterministic
function of the discovered plugin sequence, so repeated builds agree.) -/
theorem load_calls_count_unqualified (names : List String) :
    loadCallsDuringResolveSeq names = names.countP unqualifiedB := by
  induction names with
  | nil => rfl
  | cons n rest ih =>
    simp only [loadCallsDuringResolveSeq, List.map_cons, List.sum_cons,
      List.countP_cons] at *
    rw [ih]
    by_cases h : ('.' : Char) ∈ n.data
    · simp [loadCallsDuringResolve, unqualifiedB, h]
    · simp [loadCallsDuringResolve, unqualifiedB, h]
      omega

/-- C6: when several plugins declare the same node name, `load` maps it to
the group of the plugin occurring latest in iteration order (last writer
wins, no error), and — `load` being a pure function of the plugin
sequence — the mapping is identical across repeated calls on that
sequence. -/
theorem load_last_writer_wins (pre post : List Plugin) (g : String)
    (ns : List String) (x : String) (hx : x ∈ ns)
    (hpost : ∀ p ∈ post, x ∉ p.2) :
    load (pre ++ (g, ns) :: post) x = some g ∧
      load (pre ++ (g, ns) :: post) = load (pre ++ (g, ns) :: post) := by
  refine ⟨?_, rfl⟩
  have h1 : load (pre ++ (g, ns) :: post) x
      = loadFrom (insertNodes (loadFrom (fun _ => none) pre) g ns) post x := by
    unfold load
    rw [loadFrom_append]
    rfl
  rw [h1, loadFrom_not_declared _ _ _ hpost, insertNodes_apply]
  simp [hx]

/-- C6 witness: with plugins `a`, `b`, `c` in order, where `a` and `b` both
declare node `x`, the registry maps `x` to the later group `b`. -/
theorem load_last_writer_wins_witness :
    load [("a", ["x", "y"]), ("b", ["x"]), ("c", ["y"])] "x" = some "b" :=
  (load_last_writer_wins [("a", ["x", "y"])] [("c", ["y"])] "b" ["x"] "x"
    (by decide) (by decide)).1
